import Mathlib

/-!
Verification of the aggregation-and-caching core of the Ad Ops Hub dashboard
scripts (webapp1/app2 and webapp1/app3).

The JavaScript source is shallowly embedded:
* host cell / JS values become the inductive type JSVal (numbers are exact
  rationals, so the embedding ignores binary floating-point rounding and
  overflow to Infinity, which none of the verified properties depend on);
* JS objects used as keyed accumulators become insertion-ordered association
  lists (the standard model of string-keyed JS objects);
* the stateful entry points (getDashboardData, searchCampaignByType,
  appendCodeToSheet) become explicit state-passing functions over a World
  record (source sheet, permissions table, active user e-mail, cache);
* Array.prototype.sort with a comparator becomes a stable insertion sort
  (ECMAScript requires sort stability, and on consistent comparators the
  stable result is unique).
-/

set_option maxRecDepth 4000

/-- A JavaScript runtime value as it can appear in a spreadsheet cell or be
passed to the utility functions.  Finite numbers are modelled exactly as
rationals; the non-finite doubles get their own constructors. -/
inductive JSVal where
  | num (q : ℚ)
  | nan
  | infPos
  | infNeg
  | str (s : String)
  | boolV (b : Bool)
  | nullV
  | undef
  | dateObj (t : ℤ)
  | dateInvalid
  deriving DecidableEq, Repr

/-- JS truthiness: 0, NaN, the empty string, null, undefined and false are
falsy; every other value (including any Date object) is truthy. -/
def jsTruthy : JSVal → Bool
  | .num q => q ≠ 0
  | .nan => false
  | .infPos => true
  | .infNeg => true
  | .str s => s ≠ ""
  | .boolV b => b
  | .nullV => false
  | .undef => false
  | .dateObj _ => true
  | .dateInvalid => true

/-- Rendering of a rational as a string.  This approximates the host number-to-string conversion; no verified property depends on its exact
spelling (it only ever produces opaque aggregation keys). -/
def ratStr (q : ℚ) : String :=
  if q.den = 1 then toString q.num else toString q.num ++ "/" ++ toString q.den

/-- JS ToString coercion, used when a value becomes an object key, is spliced
into a template literal, or is passed through String(...).  The Date rendering
approximates the locale-dependent host Date toString; no verified property
depends on its exact spelling. -/
def jsStr : JSVal → String
  | .num q => ratStr q
  | .nan => "NaN"
  | .infPos => "Infinity"
  | .infNeg => "-Infinity"
  | .str s => s
  | .boolV b => if b then "true" else "false"
  | .nullV => "null"
  | .undef => "undefined"
  | .dateObj t => "Date@" ++ toString t
  | .dateInvalid => "Invalid Date"

/-- JS String.prototype.trim, on the character list (drops leading and
trailing whitespace). -/
def jsTrim (s : String) : String :=
  ⟨((s.data.dropWhile Char.isWhitespace).reverse.dropWhile Char.isWhitespace).reverse⟩

/-- JS String.prototype.toUpperCase on the ASCII range. -/
def jsToUpper (s : String) : String :=
  ⟨s.data.map Char.toUpper⟩

/-- JS String.prototype.toLowerCase on the ASCII range. -/
def jsToLower (s : String) : String :=
  ⟨s.data.map Char.toLower⟩

/-- Source: isNonEmpty(v) = typeof v === 'string' ? v.trim() !== '' &&
v.trim().toUpperCase() !== 'N/A' : v != null.  Note that undefined != null is
false under JS loose equality. -/
def isNonEmpty : JSVal → Bool
  | .str s => jsTrim s ≠ "" && jsToUpper (jsTrim s) ≠ "N/A"
  | .nullV => false
  | .undef => false
  | _ => true

/-- Value of a list of decimal digit characters. -/
def digitsVal (l : List Char) : ℕ :=
  l.foldl (fun a c => a * 10 + (c.toNat - 48)) 0

def allDigits (l : List Char) : Bool :=
  l.all (·.isDigit)

/-- Source: v.replace(/[^0-9.+-]/g, '') — keep only digits, '.', '+', '-'. -/
def stripNonNumeric (s : String) : String :=
  ⟨s.data.filter (fun c => c.isDigit || c = '.' || c = '+' || c = '-')⟩

/-- JS Number(s) on a string already restricted to the alphabet 0-9.+- :
the empty string converts to 0; otherwise an optional single leading sign,
then digits with at most one decimal point and at least one digit.
Anything else is NaN, encoded as none. -/
def parseStripped (s : String) : Option ℚ :=
  match s.data with
  | [] => some 0
  | c :: cs =>
    let (sgn, rest) : ℚ × List Char :=
      if c = '+' then (1, cs) else if c = '-' then (-1, cs) else (1, c :: cs)
    if rest.any (fun d => d = '+' || d = '-') then none
    else
      let intPart := rest.takeWhile (· ≠ '.')
      match rest.dropWhile (· ≠ '.') with
      | [] =>
        if intPart ≠ [] ∧ allDigits intPart then some (sgn * digitsVal intPart)
        else none
      | _ :: frac =>
        if frac.any (· = '.') then none
        else if intPart = [] ∧ frac = [] then none
        else if allDigits intPart ∧ allDigits frac then
          some (sgn * ((digitsVal intPart : ℚ) +
            (digitsVal frac : ℚ) / (10 : ℚ) ^ frac.length))
        else none

/-- Source: toNumber(v).  Finite numbers pass through, non-finite numbers and
non-string non-number values give null, a string with non-blank trim is
stripped of every character outside 0-9.+- and handed to Number. -/
def toNumber : JSVal → Option ℚ
  | .num q => some q
  | .nan => none
  | .infPos => none
  | .infNeg => none
  | .str s => if jsTrim s = "" then none else parseStripped (stripNonNumeric s)
  | _ => none

/-- JS truncation toward zero, as applied by the Date constructor to a
fractional millisecond count. -/
def jsTrunc (q : ℚ) : ℤ :=
  if q ≥ 0 then ⌊q⌋ else -⌊-q⌋

/-- Gregorian leap year. -/
def isLeap (y : ℤ) : Bool :=
  (y % 4 = 0 && y % 100 ≠ 0) || y % 400 = 0

def daysInMonth (y : ℤ) (m : ℕ) : ℕ :=
  if m = 2 then (if isLeap y then 29 else 28)
  else if m = 4 || m = 6 || m = 9 || m = 11 then 30
  else 31

/-- Days from the epoch 1970-01-01 of a civil date (Gregorian, proleptic). -/
def daysFromCivil (y : ℤ) (m d : ℕ) : ℤ :=
  let y' := if m ≤ 2 then y - 1 else y
  let era := y'.fdiv 400
  let yoe := (y' - era * 400).toNat
  let mp := if m > 2 then m - 3 else m + 9
  let doy := (153 * mp + 2) / 5 + d - 1
  let doe := yoe * 365 + yoe / 4 - yoe / 100 + doy
  era * 146097 + (doe : ℤ) - 719468

/-- Civil date (year, month, day) of a day count from the epoch. -/
def civilFromDays (z : ℤ) : ℤ × ℕ × ℕ :=
  let z' := z + 719468
  let era := z'.fdiv 146097
  let doe := (z' - era * 146097).toNat
  let yoe := (doe - doe / 1460 + doe / 36524 - doe / 146096) / 365
  let doy := doe - (365 * yoe + yoe / 4 - yoe / 100)
  let mp := (5 * doy + 2) / 153
  let d := doy - (153 * mp + 2) / 5 + 1
  let m := if mp < 10 then mp + 3 else mp - 9
  (if m ≤ 2 then (yoe : ℤ) + era * 400 + 1 else (yoe : ℤ) + era * 400, m, d)

def msPerDayZ : ℤ := 86400000

/-- Parse a yyyy-MM-dd string into a UTC-midnight millisecond timestamp, the
treatment new Date(...) gives the date strings this code produces.  The host
parser accepts further formats; the verified properties never depend on which
strings beyond this shape parse. -/
def parseYMD (s : String) : Option ℤ :=
  match s.data with
  | [y1, y2, y3, y4, '-', m1, m2, '-', d1, d2] =>
    if allDigits [y1, y2, y3, y4, m1, m2, d1, d2] then
      let y : ℤ := (digitsVal [y1, y2, y3, y4] : ℤ)
      let m := digitsVal [m1, m2]
      let d := digitsVal [d1, d2]
      if 1 ≤ m ∧ m ≤ 12 ∧ 1 ≤ d ∧ d ≤ daysInMonth y m then
        some (daysFromCivil y m d * msPerDayZ)
      else none
    else none
  | _ => none

def pad2 (n : ℕ) : String :=
  if n < 10 then "0" ++ toString n else toString n

def pad4 (y : ℤ) : String :=
  if y < 0 then "-" ++ toString (-y)
  else if y < 10 then "000" ++ toString y
  else if y < 100 then "00" ++ toString y
  else if y < 1000 then "0" ++ toString y
  else toString y

/-- Utilities.formatDate(date, 'GMT', 'yyyy-MM-dd'). -/
def formatDateGMT (t : ℤ) : String :=
  let c := civilFromDays (t.fdiv msPerDayZ)
  pad4 c.1 ++ "-" ++ pad2 c.2.1 ++ "-" ++ pad2 c.2.2

/-- Source: safeDate(v).  A valid Date passes through; a number is fed to the
Date constructor (truncated, rejected outside the representable range); a
string with non-blank trim is parsed (modelled by the yyyy-MM-dd parser);
everything else gives null. -/
def safeDate : JSVal → Option ℤ
  | .dateObj t => some t
  | .num q =>
    let t := jsTrunc q
    if t ≤ 8640000000000000 ∧ -8640000000000000 ≤ t then some t else none
  | .str s => if jsTrim s = "" then none else parseYMD (jsTrim s)
  | _ => none

/-- List-of-chars helper: does the first list start with the second? -/
def listStartsWith : List Char → List Char → Bool
  | _, [] => true
  | [], _ :: _ => false
  | a :: as, b :: bs => a = b && listStartsWith as bs

/-- List-of-chars helper: does the first list contain the second as a
contiguous run? -/
def listContainsRun : List Char → List Char → Bool
  | [], p => p.isEmpty
  | a :: as, p => listStartsWith (a :: as) p || listContainsRun as p

/-- JS String.prototype.includes. -/
def strIncludes (s pat : String) : Bool :=
  listContainsRun s.data pat.data

/-- One row of the source table after the mapping step of _getSheetData:
raw cell values for the pass-through fields, toNumber applied to the budget,
safeDate applied to the two dates (null encoded as none). -/
structure CampaignRecord where
  campaignId : JSVal
  client : JSVal
  platform : JSVal
  adFormat : JSVal
  budget : Option ℚ
  campaignType : JSVal
  status : JSVal
  startDate : Option ℤ
  endDate : Option ℤ
  remarks : JSVal
  guideLink : JSVal
  deriving DecidableEq, Repr

/-- Keyed accumulator recording insertions in order, the model of a
string-keyed JS object while it is being built: an existing key is bumped in
place, a new key is appended.  The enumeration order of Object.entries and
Object.keys, which additionally fronts array-index keys in ascending numeric
order, is applied by jsEntries at the sites where the source enumerates. -/
def bump (l : List (String × ℚ)) (k : String) (v : ℚ) : List (String × ℚ) :=
  match l with
  | [] => [(k, v)]
  | (k', v') :: t => if k' = k then (k', v' + v) :: t else (k', v') :: bump t k v

/-- Two-level accumulator for aggregators.platformClient. -/
def bump2 (l : List (String × List (String × ℚ))) (k1 k2 : String) (v : ℚ) :
    List (String × List (String × ℚ)) :=
  match l with
  | [] => [(k1, [(k2, v)])]
  | (k', inner) :: t =>
    if k' = k1 then (k', bump inner k2 v) :: t else (k', inner) :: bump2 t k1 k2 v

/-- JS Set.add: keeps the first-insertion position of an element. -/
def addPlatform (l : List String) (p : String) : List String :=
  if p ∈ l then l else l ++ [p]

def lookupQ (l : List (String × ℚ)) (k : String) : ℚ :=
  match l.find? (fun e => e.1 = k) with
  | some e => e.2
  | none => 0

def lookup2Q (l : List (String × List (String × ℚ))) (k1 k2 : String) : ℚ :=
  match l.find? (fun e => e.1 = k1) with
  | some e => lookupQ e.2 k2
  | none => 0

/-- Stable insertion sort.  before y x = true means y must strictly precede
x; an element is inserted after every already-placed element that must
precede it, which keeps equal (incomparable) elements in original order.
This is the unique stable result mandated for Array.prototype.sort. -/
def stableInsert (before : α → α → Bool) (x : α) : List α → List α
  | [] => [x]
  | y :: ys => if before y x then y :: stableInsert before x ys else x :: y :: ys

def stableSort (before : α → α → Bool) : List α → List α
  | [] => []
  | x :: xs => stableInsert before x (stableSort before xs)

/-- Array.prototype.sort() default comparator on strings (lexicographic). -/
def sortStrings (l : List String) : List String :=
  stableSort (fun a b => a < b) l

/-- entries.sort((a, b) => b[1] - a[1]): stable sort by value descending. -/
def sortPairsDesc (l : List (String × ℚ)) : List (String × ℚ) :=
  stableSort (fun a b => b.2 < a.2) l

/-- Is a string a canonical array-index property key in the sense of the
ECMAScript object model: the decimal rendering of an integer below
2 ^ 32 - 1, with no leading zero except for 0 itself. -/
def isArrayIndexKey (s : String) : Bool :=
  match s.data with
  | [] => false
  | c :: cs =>
    allDigits (c :: cs) && (c ≠ '0' || cs.isEmpty) &&
      decide (digitsVal (c :: cs) < 4294967295)

def arrayKeyVal (s : String) : ℕ :=
  digitsVal s.data

/-- The enumeration order of Object.entries and Object.keys
(OrdinaryOwnPropertyKeys): array-index keys first, in ascending numeric
order, then every remaining key in insertion order.  The accumulator lists
record insertions in order; this reordering is applied at each place where
the source enumerates an object. -/
def jsEntries (l : List (String × α)) : List (String × α) :=
  stableSort (fun a b => arrayKeyVal a.1 < arrayKeyVal b.1)
    (l.filter (fun e => isArrayIndexKey e.1))
  ++ l.filter (fun e => ¬ isArrayIndexKey e.1)

/-- The mutable aggregators object of processDataForCharts. -/
structure AggState where
  monthlyBudget : List (String × ℚ)
  platformClient : List (String × List (String × ℚ))
  allPlatforms : List String
  frequencyByClient : List (String × ℚ)
  campaignDurations : List (String × ℚ)
  campaignStatus : List (String × ℚ)
  monthlyBudgetByClient : List (String × ℚ)
  deriving DecidableEq, Repr

def initAgg : AggState :=
  ⟨[], [], [], [], [], [], []⟩

def msPerDayQ : ℚ := 86400000

/-- One iteration of the aggregation loop of processDataForCharts in app3.
A record with an absent (invalid) startDate or endDate is skipped whole by
the leading continue.  The source updates each aggregator field at most once
per row and never reads a field it wrote in the same row, so the sequential
statements are rendered as one record update. -/
def App3.step (som eom : ℤ) (s : AggState) (r : CampaignRecord) : AggState :=
  match r.startDate, r.endDate with
  | some sd, some ed =>
    let hasB := r.budget.isSome
    let b := r.budget.getD 0
    let cpCond := isNonEmpty r.client && isNonEmpty r.platform && hasB
    let inMonth := decide (sd ≤ eom) && decide (som ≤ ed)
    { campaignStatus :=
        if jsTruthy r.status then bump s.campaignStatus (jsStr r.status) 1
        else s.campaignStatus
      platformClient :=
        if cpCond then bump2 s.platformClient (jsStr r.client) (jsStr r.platform) b
        else s.platformClient
      allPlatforms :=
        if cpCond then addPlatform s.allPlatforms (jsStr r.platform)
        else s.allPlatforms
      frequencyByClient :=
        if cpCond then
          bump s.frequencyByClient (jsStr r.client ++ " - " ++ jsStr r.platform) b
        else s.frequencyByClient
      monthlyBudget :=
        if inMonth && isNonEmpty r.adFormat && hasB then
          bump s.monthlyBudget (jsStr r.adFormat) b
        else s.monthlyBudget
      monthlyBudgetByClient :=
        if inMonth && isNonEmpty r.client && hasB then
          bump s.monthlyBudgetByClient (jsStr r.client) b
        else s.monthlyBudgetByClient
      campaignDurations :=
        if isNonEmpty r.campaignType then
          bump s.campaignDurations (jsStr r.campaignType) ((ed - sd : ℚ) / msPerDayQ)
        else s.campaignDurations }
  | _, _ => s

/-- One iteration of the aggregation loop of processDataForCharts in app2.
Identical to the app3 step except that the campaign-duration bucket additionally
requires a present budget. -/
def App2.step (som eom : ℤ) (s : AggState) (r : CampaignRecord) : AggState :=
  match r.startDate, r.endDate with
  | some sd, some ed =>
    let hasB := r.budget.isSome
    let b := r.budget.getD 0
    let cpCond := isNonEmpty r.client && isNonEmpty r.platform && hasB
    let inMonth := decide (sd ≤ eom) && decide (som ≤ ed)
    { campaignStatus :=
        if jsTruthy r.status then bump s.campaignStatus (jsStr r.status) 1
        else s.campaignStatus
      platformClient :=
        if cpCond then bump2 s.platformClient (jsStr r.client) (jsStr r.platform) b
        else s.platformClient
      allPlatforms :=
        if cpCond then addPlatform s.allPlatforms (jsStr r.platform)
        else s.allPlatforms
      frequencyByClient :=
        if cpCond then
          bump s.frequencyByClient (jsStr r.client ++ " - " ++ jsStr r.platform) b
        else s.frequencyByClient
      monthlyBudget :=
        if inMonth && isNonEmpty r.adFormat && hasB then
          bump s.monthlyBudget (jsStr r.adFormat) b
        else s.monthlyBudget
      monthlyBudgetByClient :=
        if inMonth && isNonEmpty r.client && hasB then
          bump s.monthlyBudgetByClient (jsStr r.client) b
        else s.monthlyBudgetByClient
      campaignDurations :=
        if isNonEmpty r.campaignType && hasB then
          bump s.campaignDurations (jsStr r.campaignType) ((ed - sd : ℚ) / msPerDayQ)
        else s.campaignDurations }
  | _, _ => s

/-- The chart bundle returned by processDataForCharts.  Each table is the
list of data rows after the constant header row (headers carry no data and
are left implicit); platformHeader is the sorted platform list that follows
'Client' in the header row of the client-by-platform table. -/
structure Charts where
  platformHeader : List String
  platformClientCounts : List (String × List ℚ)
  frequencyByClient : List (String × ℚ)
  currentMonthBudgets : List (String × ℚ)
  campaignDurations : List (String × ℚ)
  campaignStatusCounts : List (String × ℚ)
  monthlyBudgetByClient : List (String × ℚ)
  deriving DecidableEq, Repr

/-- Post-loop shaping, identical in app2 and app3: platform columns sorted,
dense client rows with zero fill and all-zero rows dropped, campaign
durations cut to the top 5 by total descending, zero client-budget rows
dropped.  Every Object.entries and Object.keys call enumerates in the
jsEntries order (array-index keys numerically ascending first, then
insertion order); allPlatforms is a Set, which iterates purely in insertion
order. -/
def postCharts (s : AggState) : Charts :=
  let sortedPlatforms := sortStrings s.allPlatforms
  let rows := (sortStrings ((jsEntries s.platformClient).map Prod.fst)).map
    (fun c => (c, sortedPlatforms.map (fun p => lookup2Q s.platformClient c p)))
  { platformHeader := sortedPlatforms
    platformClientCounts := rows.filter (fun row => row.2.any (· ≠ 0))
    frequencyByClient := jsEntries s.frequencyByClient
    currentMonthBudgets := jsEntries s.monthlyBudget
    campaignDurations := (sortPairsDesc (jsEntries s.campaignDurations)).take 5
    campaignStatusCounts := jsEntries s.campaignStatus
    monthlyBudgetByClient := (jsEntries s.monthlyBudgetByClient).filter (fun e => e.2 ≠ 0) }

/-- processDataForCharts of app3.  som and eom are the millisecond timestamps
of the start and (inclusive) end of the calendar month containing "now",
which the source computes from the clock. -/
def App3.processDataForCharts (som eom : ℤ) (data : List CampaignRecord) : Charts :=
  if data.isEmpty then postCharts initAgg
  else postCharts (data.foldl (App3.step som eom) initAgg)

/-- processDataForCharts of app2. -/
def App2.processDataForCharts (som eom : ℤ) (data : List CampaignRecord) : Charts :=
  if data.isEmpty then postCharts initAgg
  else postCharts (data.foldl (App2.step som eom) initAgg)

/-- The source spreadsheet: a grid of cell values addressed 1-based by
(row, column).  maxRows is the grid height (getMaxRows), lastRow the last
row with content (getLastRow). -/
structure Sheet where
  maxRows : ℕ
  lastRow : ℕ
  cells : ℕ → ℕ → JSVal

/-- A search result row: the record fields spread out, with the two dates
replaced by their yyyy-MM-dd rendering (empty string for null) and the
campaign id copied into id. -/
structure SearchHit where
  campaignId : JSVal
  client : JSVal
  platform : JSVal
  adFormat : JSVal
  budget : Option ℚ
  campaignType : JSVal
  status : JSVal
  startDateStr : String
  endDateStr : String
  remarks : JSVal
  guideLink : JSVal
  id : JSVal
  deriving DecidableEq, Repr

/-- A deserializable cache value: the stringified base-dashboard payload,
a stringified search-result list, or a corrupted string on which JSON.parse
throws. -/
inductive Stored where
  | base (charts : Charts) (clients : List JSVal)
  | search (l : List SearchHit)
  | bad
  deriving DecidableEq

/-- The shared mutable environment of one app3 invocation: the source sheet
and permissions sheet (none when the named sheet is missing), the active
user identity, and the document cache as a list of (key, value, ttl
seconds) entries. -/
structure World where
  sourceSheet : Option Sheet
  permRows : Option (List (JSVal × JSVal))
  email : String
  cache : List (String × Stored × ℕ)

def cacheGet (c : List (String × Stored × ℕ)) (k : String) : Option Stored :=
  (c.find? (fun e => e.1 = k)).map (fun e => e.2.1)

/-- CacheService put: replaces any entry under the same key. -/
def cachePut (c : List (String × Stored × ℕ)) (k : String) (v : Stored) (ttl : ℕ) :
    List (String × Stored × ℕ) :=
  c.filter (fun e => ¬ e.1 = k) ++ [(k, v, ttl)]

/-- CacheService remove: no-op when the key is absent. -/
def cacheRemove (c : List (String × Stored × ℕ)) (k : String) :
    List (String × Stored × ℕ) :=
  c.filter (fun e => ¬ e.1 = k)

def CACHE_KEY_BASE_DATA : String := "APP3_DASHBOARD_BASE_V1"

def CACHE_KEY_SEARCH_PREFIX : String := "APP3_SEARCH_CT_"

def CACHE_EXP_SECONDS : ℕ := 60

/-- Source: getUserRole().  Missing permissions sheet gives null; otherwise
the header row is dropped and the first row whose first cell is a truthy
string matching the user e-mail after trim and case folding yields that
second cell of that row. -/
def findRole (email : String) : List (JSVal × JSVal) → Option JSVal
  | [] => none
  | (idCell, roleCell) :: t =>
    match idCell with
    | .str s =>
      if s ≠ "" ∧ jsToLower (jsTrim s) = jsToLower email then some roleCell
      else findRole email t
    | _ => findRole email t

def getUserRole (w : World) : Option JSVal :=
  match w.permRows with
  | none => none
  | some rows => findRole w.email (rows.drop 1)

def ENTRY_COLUMN_INDEX : ℕ := 43

/-- Scan rows start, start+1, ... (n rows in all) of the entry column for
the first cell that is strictly the empty string.  Models
getRange(1, 43, maxRows, 1).getValues() followed by findIndex(row =>
row[0] === ''). -/
def scanEmpty (f : ℕ → JSVal) : ℕ → ℕ → Option ℕ
  | _, 0 => none
  | start, n + 1 =>
    if f start = .str "" then some start else scanEmpty f (start + 1) n

/-- The row appendCodeToSheet writes to: the first row of the entry column
whose cell is the empty string, or lastRow + 1 when the scanned column has
no empty cell. -/
def targetRow (sh : Sheet) : ℕ :=
  (scanEmpty (fun r => sh.cells r ENTRY_COLUMN_INDEX) 1 sh.maxRows).getD (sh.lastRow + 1)

inductive AppErr where
  | permissionDenied
  | invalidInput
  | appendFailed (msg : String)
  deriving DecidableEq, Repr

def appendMsg (code : JSVal) (row : ℕ) : String :=
  "Code \"" ++ jsStr code ++ "\" submitted to row " ++ toString row ++ "."

/-- Source: appendCodeToSheet(code).  Denies unless the resolved role is
exactly the string admin, rejects blank codes, then writes the code into the
first empty cell of the entry column and removes the base dashboard cache
entry.  A missing source sheet surfaces as the re-wrapped append failure.
The model lets the grid grow to hold the written cell, and the written row
extends lastRow. -/
def appendCodeToSheet (code : JSVal) (w : World) : Except AppErr String × World :=
  if getUserRole w = some (.str "admin") then
    if jsTruthy code = false ∨ jsTrim (jsStr code) = "" then (.error .invalidInput, w)
    else
      match w.sourceSheet with
      | none =>
        (.error (.appendFailed
          "Failed to append to sheet: Sheet \"Weekly log_Thomas W\" not found."), w)
      | some sh =>
        let r0 := targetRow sh
        let sh' : Sheet :=
          { maxRows := max sh.maxRows r0
            lastRow := max sh.lastRow r0
            cells := fun r c =>
              if r = r0 ∧ c = ENTRY_COLUMN_INDEX then code else sh.cells r c }
        (.ok (appendMsg code r0),
         { w with sourceSheet := some sh'
                  cache := cacheRemove w.cache CACHE_KEY_BASE_DATA })
  else (.error .permissionDenied, w)

/-- Source: _getSheetData() on a present sheet: rows 2..lastRow are mapped
through the sanitizers into campaign records (empty when only the header row
exists).  Reading the minimal column span is a pure optimization and is not
modelled; cells are addressed by their absolute column. -/
def getSheetData (sh : Sheet) : List CampaignRecord :=
  if sh.lastRow ≤ 1 then []
  else
    (List.range (sh.lastRow - 1)).map (fun i =>
      let c := sh.cells (i + 2)
      { campaignId := c 22
        client := c 6
        platform := c 7
        adFormat := c 8
        budget := toNumber (c 9)
        campaignType := c 12
        status := c 5
        startDate := safeDate (c 19)
        endDate := safeDate (c 20)
        remarks := c 42
        guideLink := c 43 })

def SOURCE_MISSING_MSG : String := "Source sheet \"Weekly log_Thomas W\" not found."

/-- Source: buildBaseDashboardData(): the charts plus the sorted list of
distinct non-empty client cells, or the error payload when the source sheet
is missing. -/
def buildBaseDashboardData (som eom : ℤ) (w : World) :
    Except String (Charts × List JSVal) :=
  match w.sourceSheet with
  | none => .error SOURCE_MISSING_MSG
  | some sh =>
    let data := getSheetData sh
    let clients := stableSort (fun a b => jsStr a < jsStr b)
      (((data.filter (fun r => isNonEmpty r.client)).map (fun r => r.client)).dedup)
    .ok (App3.processDataForCharts som eom data, clients)

/-- The user display name derived from the e-mail local part. -/
def userNameOf (email : String) : String :=
  if email = "" then "User"
  else
    let first := ((email.splitOn "@").headD "").splitOn "." |>.headD ""
    match first.data with
    | [] => "User"
    | ch :: rest => ⟨ch.toUpper :: rest⟩

structure DashPayload where
  charts : Charts
  clients : List JSVal
  userName : String
  userRole : Option JSVal

inductive DashOut where
  | errOut (msg : String)
  | okOut (p : DashPayload)

/-- Shared tail of getDashboardData: error payloads pass through, a good
base payload gets the per-user fields attached. -/
def dressDash (w : World) : Except String (Charts × List JSVal) → DashOut
  | .error e => .errOut e
  | .ok p =>
    .okOut { charts := p.1, clients := p.2, userName := userNameOf w.email,
             userRole := getUserRole w }

/-- Source: getDashboardData().  A cached base payload is parsed and used; a
corrupted cached string makes JSON.parse throw, which the catch block turns
into a direct recomputation without touching the cache; a miss recomputes
and stores the payload for 60 seconds unless it is an error payload.  A
stored search list under the base key cannot arise (the key namespaces are
disjoint) and is modelled like a corrupted entry. -/
def getDashboardData (som eom : ℤ) (w : World) : DashOut × World :=
  match cacheGet w.cache CACHE_KEY_BASE_DATA with
  | some (.base charts clients) => (dressDash w (.ok (charts, clients)), w)
  | some (.search _) => (dressDash w (buildBaseDashboardData som eom w), w)
  | some .bad => (dressDash w (buildBaseDashboardData som eom w), w)
  | none =>
    match buildBaseDashboardData som eom w with
    | .error e => (dressDash w (.error e), w)
    | .ok p =>
      (dressDash w (.ok p),
       { w with cache := cachePut w.cache CACHE_KEY_BASE_DATA (.base p.1 p.2)
                  CACHE_EXP_SECONDS })

/-- Observable backend operations of one searchCampaignByType invocation,
recorded in order: reads of the source table range, cache reads, cache
writes. -/
inductive Eff where
  | sheetReadE
  | cacheGetE (k : String)
  | cachePutE (k : String)
  deriving DecidableEq, Repr

inductive SRes where
  | list (l : List SearchHit)
  | err (msg : String)
  deriving DecidableEq

def mkHit (r : CampaignRecord) : SearchHit :=
  { campaignId := r.campaignId
    client := r.client
    platform := r.platform
    adFormat := r.adFormat
    budget := r.budget
    campaignType := r.campaignType
    status := r.status
    startDateStr := match r.startDate with
      | some t => formatDateGMT t
      | none => ""
    endDateStr := match r.endDate with
      | some t => formatDateGMT t
      | none => ""
    remarks := r.remarks
    guideLink := r.guideLink
    id := r.campaignId }

/-- Source: row.campaignType && String(row.campaignType).toUpperCase()
.includes(needle). -/
def matchesNeedle (needle : String) (r : CampaignRecord) : Bool :=
  jsTruthy r.campaignType && strIncludes (jsToUpper (jsStr r.campaignType)) needle

/-- Comparator (a, b) => new Date(b.startDate) - new Date(a.startDate) > 0,
rendered as the strict precedence test of the stable sort: y precedes x when
both formatted dates parse and the date of y is later.  An unparsable (empty) date
makes the comparator NaN, which the engine treats as no reorder. -/
def hitBefore (y x : SearchHit) : Bool :=
  match parseYMD y.startDateStr, parseYMD x.startDateStr with
  | some ty, some tx => tx < ty
  | _, _ => false

def sortHits (l : List SearchHit) : List SearchHit :=
  stableSort hitBefore l

def searchNeedle (q : String) : String := jsToUpper (jsTrim q)

def searchKey (q : String) : String := CACHE_KEY_SEARCH_PREFIX ++ searchNeedle q

/-- The full (uncapped) search result list for a needle over a sheet. -/
def searchResultsFor (needle : String) (sh : Sheet) : List SearchHit :=
  sortHits (((getSheetData sh).filter (matchesNeedle needle)).map mkHit)

/-- Source: searchCampaignByType(campaignType).  A blank query returns the
empty list before anything else runs.  Otherwise the sheet is read (even
when the cache will hit), a missing sheet surfaces as the error payload, a
cached list for the needle is returned as-is, and on a miss the filtered,
sorted results are returned in full while only their first 300 entries are
cached for 30 seconds.  A corrupted cached string makes JSON.parse throw
into the empty catch, falling through to the recomputation; a stored base
payload under a search key cannot arise (disjoint key namespaces) and is
modelled the same way. -/
def searchCampaignByType (q : String) (w : World) : SRes × World × List Eff :=
  if jsTrim q = "" then (.list [], w, [])
  else
    let needle := searchNeedle q
    match w.sourceSheet with
    | none => (.err SOURCE_MISSING_MSG, w, [])
    | some sh =>
      let readEffs : List Eff := if sh.lastRow ≤ 1 then [] else [.sheetReadE]
      let ck := CACHE_KEY_SEARCH_PREFIX ++ needle
      match cacheGet w.cache ck with
      | some (.search l) => (.list l, w, readEffs ++ [.cacheGetE ck])
      | _ =>
        let sorted := searchResultsFor needle sh
        (.list sorted,
         { w with cache := cachePut w.cache ck (.search (sorted.take 300)) 30 },
         readEffs ++ [.cacheGetE ck, .cachePutE ck])

/-- The contribution of one record to the status-count bucket, as the loop
actually computes it: only records with both dates valid and a truthy
status cell count. -/
def statusStep (acc : List (String × ℚ)) (r : CampaignRecord) : List (String × ℚ) :=
  if r.startDate.isSome && r.endDate.isSome && jsTruthy r.status then
    bump acc (jsStr r.status) 1
  else acc

/-- The status-count table of an input sequence, stated independently of the
aggregation loop: one bump per record that has both dates valid and a truthy
status. -/
def statusCountsOfValidRows (data : List CampaignRecord) : List (String × ℚ) :=
  data.foldl statusStep []

/-- Two aggregation states that agree on every bucket except the
campaign-duration one. -/
def AgreeExceptDurations (a b : AggState) : Prop :=
  a.monthlyBudget = b.monthlyBudget ∧
  a.platformClient = b.platformClient ∧
  a.allPlatforms = b.allPlatforms ∧
  a.frequencyByClient = b.frequencyByClient ∧
  a.campaignStatus = b.campaignStatus ∧
  a.monthlyBudgetByClient = b.monthlyBudgetByClient

/-- A string made only of non-numeric symbols: no digit, plus, minus or
dot anywhere. -/
def symbolsOnly (s : String) : Bool :=
  s.data.all (fun c => ¬ (c.isDigit || c = '+' || c = '-' || c = '.'))

/-- Fixture for the C1 counterexample: status present but startDate invalid. -/
def c1Rec : CampaignRecord :=
  { campaignId := .str "id1", client := .str "Acme", platform := .str "Meta"
    adFormat := .str "Banner", budget := some 10, campaignType := .str "Brand"
    status := .str "Active", startDate := none, endDate := some 0
    remarks := .str "", guideLink := .str "" }

/-- Fixture for the C5 disagreement: campaignType present, budget absent,
both dates valid. -/
def c5Rec : CampaignRecord :=
  { campaignId := .str "id2", client := .str "", platform := .str ""
    adFormat := .str "", budget := none, campaignType := .str "Search"
    status := .str "", startDate := some 0, endDate := some 86400000
    remarks := .str "", guideLink := .str "" }

/-- Fixture for the C5 witness: campaignType present together with a budget. -/
def c5WRec : CampaignRecord :=
  { campaignId := .str "id3", client := .str "A", platform := .str "P"
    adFormat := .str "AF", budget := some 5, campaignType := .str "Type"
    status := .str "Live", startDate := some 0, endDate := some 86400000
    remarks := .str "", guideLink := .str "" }

deriving instance DecidableEq for Except

/-- Fixture world for C6: blank-query search. -/
def w1 : World :=
  { sourceSheet := none, permRows := none, email := "", cache := [] }

/-- Fixture sheet and world for C10: empty data, empty cache. -/
def sh2 : Sheet :=
  { maxRows := 1, lastRow := 1, cells := fun _ _ => .str "" }

def w2 : World :=
  { sourceSheet := some sh2, permRows := none, email := "", cache := [] }

/-- Fixture for the C2 counterexample: an admin caller, a sheet whose entry
column has its first empty cell in row 2, and a cache holding a pre-mutation
search payload. -/
def staleHit : SearchHit :=
  { campaignId := .str "old", client := .str "C", platform := .str "P"
    adFormat := .str "A", budget := some 1, campaignType := .str "FOO"
    status := .str "Done", startDateStr := "2020-01-01"
    endDateStr := "2020-01-02", remarks := .str "", guideLink := .str ""
    id := .str "old" }

def sh3 : Sheet :=
  { maxRows := 2, lastRow := 1
    cells := fun r c => if r = 1 ∧ c = 43 then .str "hdr" else .str "" }

def w3 : World :=
  { sourceSheet := some sh3
    permRows := some [(.str "h", .str "h"), (.str "admin@corp.com", .str "admin")]
    email := "admin@corp.com"
    cache := [("APP3_SEARCH_CT_FOO", .search [staleHit], 30)] }

/-- Fixture sheet and world for the C9 witness: entry column occupied in
row 1, empty from row 2; the permissions row matches the caller only after
trimming and case folding. -/
def sh4 : Sheet :=
  { maxRows := 3, lastRow := 3
    cells := fun r c =>
      if c = 43 then (if r = 1 then .str "x" else .str "") else .num 7 }

def w4 : World :=
  { sourceSheet := some sh4
    permRows := some [(.str "h", .str "h"), (.str "boss@corp.com ", .str "admin")]
    email := "Boss@Corp.com"
    cache := [] }

/-- Fixture world for the C3 witness: the resolved role is the string Admin,
which differs from admin in case only. -/
def w5 : World :=
  { sourceSheet := some ⟨2, 1, fun _ _ => .str ""⟩
    permRows := some [(.str "Email", .str "Role"),
                      (.str "user@example.com", .str "Admin")]
    email := "User@Example.com"
    cache := [] }

/-- Fixtures for the C7 counterexample: two records whose campaignType
cells stringify to the integer-like keys 2 and 1, inserted in that order
and carrying equal summed durations. -/
def c7DurVal : ℚ := ((0 : ℤ) - (0 : ℤ) : ℚ) / msPerDayQ

def c7RecA : CampaignRecord :=
  { campaignId := .str "a", client := .str "", platform := .str ""
    adFormat := .str "", budget := none, campaignType := .str "2"
    status := .str "", startDate := some 0, endDate := some 0
    remarks := .str "", guideLink := .str "" }

def c7RecB : CampaignRecord :=
  { campaignId := .str "b", client := .str "", platform := .str ""
    adFormat := .str "", budget := none, campaignType := .str "1"
    status := .str "", startDate := some 0, endDate := some 0
    remarks := .str "", guideLink := .str "" }

/-- Fixture world for the C8 witness: the cached base payload is corrupted. -/
def w8 : World :=
  { sourceSheet := some ⟨1, 1, fun _ _ => .str ""⟩
    permRows := none
    email := "someone@x.y"
    cache := [("APP3_DASHBOARD_BASE_V1", .bad, 60)] }

theorem postCharts_campaignStatusCounts (s : AggState) :
    (postCharts s).campaignStatusCounts = jsEntries s.campaignStatus := rfl

theorem app3_processDataForCharts_eq_post (som eom : ℤ) :
    ∀ data, App3.processDataForCharts som eom data
      = postCharts (data.foldl (App3.step som eom) initAgg)
  | [] => rfl
  | _ :: _ => rfl

theorem app2_processDataForCharts_eq_post (som eom : ℤ) :
    ∀ data, App2.processDataForCharts som eom data
      = postCharts (data.foldl (App2.step som eom) initAgg)
  | [] => rfl
  | _ :: _ => rfl

theorem app3_step_campaignStatus (som eom : ℤ) (s : AggState) (r : CampaignRecord) :
    (App3.step som eom s r).campaignStatus = statusStep s.campaignStatus r := by
  unfold App3.step statusStep
  cases hsd : r.startDate <;> cases hed : r.endDate <;> simp [hsd, hed]

theorem app2_step_campaignStatus (som eom : ℤ) (s : AggState) (r : CampaignRecord) :
    (App2.step som eom s r).campaignStatus = statusStep s.campaignStatus r := by
  unfold App2.step statusStep
  cases hsd : r.startDate <;> cases hed : r.endDate <;> simp [hsd, hed]

theorem app3_foldl_campaignStatus (som eom : ℤ) (data : List CampaignRecord) :
    ∀ s : AggState, (data.foldl (App3.step som eom) s).campaignStatus
      = data.foldl statusStep s.campaignStatus := by
  induction data with
  | nil => intro s; rfl
  | cons r t ih =>
    intro s
    simp only [List.foldl_cons, ih, app3_step_campaignStatus]

theorem app2_foldl_campaignStatus (som eom : ℤ) (data : List CampaignRecord) :
    ∀ s : AggState, (data.foldl (App2.step som eom) s).campaignStatus
      = data.foldl statusStep s.campaignStatus := by
  induction data with
  | nil => intro s; rfl
  | cons r t ih =>
    intro s
    simp only [List.foldl_cons, ih, app2_step_campaignStatus]

/-- C1 (amended): in both dashboard variants the status-count bucket is the
fold of one increment per record whose startDate and endDate are both valid
and whose status cell is truthy (presented in the entries-enumeration
order); a record with an absent or invalid startDate or endDate is skipped
by the loop before the status count and so is excluded from the status
counts as well. -/
theorem c1_statusCounts_require_valid_dates (som eom : ℤ) (data : List CampaignRecord) :
    (App3.processDataForCharts som eom data).campaignStatusCounts
        = jsEntries (statusCountsOfValidRows data) ∧
    (App2.processDataForCharts som eom data).campaignStatusCounts
        = jsEntries (statusCountsOfValidRows data) := by
  constructor
  · rw [app3_processDataForCharts_eq_post, postCharts_campaignStatusCounts,
      app3_foldl_campaignStatus]
    rfl
  · rw [app2_processDataForCharts_eq_post, postCharts_campaignStatusCounts,
      app2_foldl_campaignStatus]
    rfl

/-- C1 counterexample: a record whose status cell is present (truthy and
non-empty) but whose startDate is invalid is not counted: the status-count
bucket stays empty, refuting the claim that such records still increment
count0x5bstatus0x5d. -/
theorem c1_counterexample :
    jsTruthy c1Rec.status = true ∧ isNonEmpty c1Rec.status = true ∧
    c1Rec.startDate = none ∧
    (App3.processDataForCharts 0 0 [c1Rec]).campaignStatusCounts = [] ∧
    (App2.processDataForCharts 0 0 [c1Rec]).campaignStatusCounts = [] := by
  decide

theorem step_agreeExceptDurations (som eom : ℤ) (r : CampaignRecord)
    {a b : AggState} (h : AgreeExceptDurations a b) :
    AgreeExceptDurations (App2.step som eom a r) (App3.step som eom b r) := by
  obtain ⟨h1, h2, h3, h4, h5, h6⟩ := h
  cases hsd : r.startDate <;> cases hed : r.endDate <;>
    simp [App2.step, App3.step, AgreeExceptDurations, hsd, hed, h1, h2, h3, h4, h5, h6]

theorem foldl_agreeExceptDurations (som eom : ℤ) (data : List CampaignRecord) :
    ∀ {a b : AggState}, AgreeExceptDurations a b →
      AgreeExceptDurations (data.foldl (App2.step som eom) a)
        (data.foldl (App3.step som eom) b) := by
  induction data with
  | nil => intro a b h; exact h
  | cons r t ih =>
    intro a b h
    simp only [List.foldl_cons]
    exact ih (step_agreeExceptDurations som eom r h)

theorem step_eq_of_budget (som eom : ℤ) (r : CampaignRecord)
    (hr : isNonEmpty r.campaignType = true → r.budget.isSome = true)
    (s : AggState) : App2.step som eom s r = App3.step som eom s r := by
  cases hsd : r.startDate <;> cases hed : r.endDate <;>
    simp [App2.step, App3.step, hsd, hed]
  by_cases hct : isNonEmpty r.campaignType
  · simp [hct, hr hct]
  · simp [hct]

theorem foldl_eq_of_budget (som eom : ℤ) (data : List CampaignRecord)
    (hd : ∀ r ∈ data, isNonEmpty r.campaignType = true → r.budget.isSome = true) :
    ∀ s : AggState, data.foldl (App2.step som eom) s = data.foldl (App3.step som eom) s := by
  induction data with
  | nil => intro s; rfl
  | cons r t ih =>
    intro s
    simp only [List.foldl_cons]
    rw [step_eq_of_budget som eom r (hd r (by simp))]
    exact ih (fun r' hr' => hd r' (by simp [hr'])) _

theorem postCharts_agree {a b : AggState} (h : AgreeExceptDurations a b) :
    (postCharts a).platformHeader = (postCharts b).platformHeader ∧
    (postCharts a).platformClientCounts = (postCharts b).platformClientCounts ∧
    (postCharts a).frequencyByClient = (postCharts b).frequencyByClient ∧
    (postCharts a).currentMonthBudgets = (postCharts b).currentMonthBudgets ∧
    (postCharts a).campaignStatusCounts = (postCharts b).campaignStatusCounts ∧
    (postCharts a).monthlyBudgetByClient = (postCharts b).monthlyBudgetByClient := by
  obtain ⟨h1, h2, h3, h4, h5, h6⟩ := h
  simp [postCharts, h1, h2, h3, h4, h5, h6]

/-- C5: app2 and app3 agree unconditionally on every chart bucket except the
campaign-duration one; when every record with a present campaignType also
has a present budget their duration buckets coincide as well; and the two
variants genuinely disagree on a record whose campaignType is present but
whose budget is absent. -/
theorem c5_duration_budget_is_only_divergence (som eom : ℤ) (data : List CampaignRecord) :
    ((App2.processDataForCharts som eom data).platformHeader
        = (App3.processDataForCharts som eom data).platformHeader ∧
      (App2.processDataForCharts som eom data).platformClientCounts
        = (App3.processDataForCharts som eom data).platformClientCounts ∧
      (App2.processDataForCharts som eom data).frequencyByClient
        = (App3.processDataForCharts som eom data).frequencyByClient ∧
      (App2.processDataForCharts som eom data).currentMonthBudgets
        = (App3.processDataForCharts som eom data).currentMonthBudgets ∧
      (App2.processDataForCharts som eom data).campaignStatusCounts
        = (App3.processDataForCharts som eom data).campaignStatusCounts ∧
      (App2.processDataForCharts som eom data).monthlyBudgetByClient
        = (App3.processDataForCharts som eom data).monthlyBudgetByClient) ∧
    ((∀ r ∈ data, isNonEmpty r.campaignType = true → r.budget.isSome = true) →
      (App2.processDataForCharts som eom data).campaignDurations
        = (App3.processDataForCharts som eom data).campaignDurations) ∧
    (App2.processDataForCharts 0 86400000 [c5Rec]).campaignDurations
      ≠ (App3.processDataForCharts 0 86400000 [c5Rec]).campaignDurations := by
  refine ⟨?_, ?_, ?_⟩
  · rw [app2_processDataForCharts_eq_post, app3_processDataForCharts_eq_post]
    exact postCharts_agree
      (foldl_agreeExceptDurations som eom data ⟨rfl, rfl, rfl, rfl, rfl, rfl⟩)
  · intro hd
    rw [app2_processDataForCharts_eq_post, app3_processDataForCharts_eq_post,
      foldl_eq_of_budget som eom data hd]
  · decide

/-- Witness for the conditional part of C5 at a concrete input on which every
campaignType-bearing record carries a budget. -/
theorem c5_witness :
    (App2.processDataForCharts 0 86400000 [c5WRec]).campaignDurations
      = (App3.processDataForCharts 0 86400000 [c5WRec]).campaignDurations :=
  (c5_duration_budget_is_only_divergence 0 86400000 [c5WRec]).2.1 (by decide)

theorem mem_stableInsert (bf : α → α → Bool) (x : α) :
    ∀ (l : List α) (a : α), a ∈ stableInsert bf x l ↔ a = x ∨ a ∈ l := by
  intro l
  induction l with
  | nil => intro a; simp [stableInsert]
  | cons y ys ih =>
    intro a
    unfold stableInsert
    by_cases hb : bf y x
    · rw [if_pos hb]
      simp only [List.mem_cons, ih]
      tauto
    · rw [if_neg hb]
      simp only [List.mem_cons]

theorem stableInsert_pairwise (bf : α → α → Bool) (R : α → α → Prop)
    (hbf : ∀ a b, (bf a b = true → R a b) ∧ (bf a b = false → R b a))
    (htrans : ∀ a b c, R a b → R b c → R a c) (x : α) :
    ∀ l : List α, l.Pairwise R → (stableInsert bf x l).Pairwise R := by
  intro l
  induction l with
  | nil => intro _; simp [stableInsert]
  | cons y ys ih =>
    intro h
    rw [List.pairwise_cons] at h
    obtain ⟨hy, hys⟩ := h
    unfold stableInsert
    by_cases hb : bf y x
    · rw [if_pos hb]
      rw [List.pairwise_cons]
      refine ⟨?_, ih hys⟩
      intro z hz
      rcases (mem_stableInsert bf x ys z).mp hz with rfl | hz'
      · exact (hbf y z).1 hb
      · exact hy z hz'
    · rw [if_neg hb]
      have hxy : R x y := (hbf y x).2 (Bool.of_not_eq_true hb)
      rw [List.pairwise_cons]
      refine ⟨?_, List.pairwise_cons.mpr ⟨hy, hys⟩⟩
      intro z hz
      rcases List.mem_cons.mp hz with rfl | hz'
      · exact hxy
      · exact htrans x y z hxy (hy z hz')

theorem stableSort_pairwise (bf : α → α → Bool) (R : α → α → Prop)
    (hbf : ∀ a b, (bf a b = true → R a b) ∧ (bf a b = false → R b a))
    (htrans : ∀ a b c, R a b → R b c → R a c) :
    ∀ l : List α, (stableSort bf l).Pairwise R := by
  intro l
  induction l with
  | nil => simp [stableSort]
  | cons x xs ih => exact stableInsert_pairwise bf R hbf htrans x _ ih

theorem sortPairsDesc_pairwise (l : List (String × ℚ)) :
    (sortPairsDesc l).Pairwise (fun a b => b.2 ≤ a.2) := by
  unfold sortPairsDesc
  apply stableSort_pairwise
  · intro a b
    constructor
    · intro h
      exact le_of_lt (of_decide_eq_true h)
    · intro h
      exact not_lt.mp (of_decide_eq_false h)
  · intro a b c hab hbc
    exact le_trans hbc hab

theorem filter_stableInsert_of_neg (p : α → Bool) (bf : α → α → Bool) (x : α)
    (hx : p x = false) :
    ∀ l : List α, (stableInsert bf x l).filter p = l.filter p := by
  intro l
  induction l with
  | nil => simp [stableInsert, hx]
  | cons y ys ih =>
    unfold stableInsert
    by_cases hb : bf y x
    · rw [if_pos hb]
      simp only [List.filter_cons, ih]
    · rw [if_neg hb]
      simp [List.filter_cons, hx]

theorem filter_stableInsert_of_pos (v : ℚ) (x : String × ℚ) (hx : x.2 = v) :
    ∀ l : List (String × ℚ), l.Pairwise (fun a b => b.2 ≤ a.2) →
      (stableInsert (fun a b => decide (b.2 < a.2)) x l).filter (fun e => decide (e.2 = v))
        = x :: l.filter (fun e => decide (e.2 = v)) := by
  intro l
  induction l with
  | nil => simp [stableInsert, hx]
  | cons y ys ih =>
    intro h
    rw [List.pairwise_cons] at h
    obtain ⟨hy, hys⟩ := h
    unfold stableInsert
    by_cases hb : (fun (a b : String × ℚ) => decide (b.2 < a.2)) y x
    · rw [if_pos hb]
      have hxy : x.2 < y.2 := of_decide_eq_true hb
      have hpy : (fun (e : String × ℚ) => decide (e.2 = v)) y = false := by
        simp only [decide_eq_false_iff_not]
        intro hyv
        rw [hx] at hxy
        rw [hyv] at hxy
        exact lt_irrefl v hxy
      simp only [List.filter_cons, hpy, ih hys]
      simp [hpy]
    · rw [if_neg hb]
      simp only [List.filter_cons]
      simp [hx]

theorem sortPairsDesc_filter (v : ℚ) :
    ∀ l : List (String × ℚ),
      (sortPairsDesc l).filter (fun e => decide (e.2 = v))
        = l.filter (fun e => decide (e.2 = v)) := by
  intro l
  induction l with
  | nil => rfl
  | cons x xs ih =>
    show (stableInsert _ x (sortPairsDesc xs)).filter _ = _
    by_cases hx : x.2 = v
    · rw [filter_stableInsert_of_pos v x hx (sortPairsDesc xs) (sortPairsDesc_pairwise xs), ih]
      simp [List.filter_cons, hx]
    · rw [filter_stableInsert_of_neg _ _ x (by simp [hx]), ih]
      simp [List.filter_cons, hx]

theorem filter_take_leads (p : α → Bool) (n : ℕ) (l : List α) :
    ∃ t, (l.take n).filter p ++ t = l.filter p :=
  ⟨(l.drop n).filter p, by rw [← List.filter_append, List.take_append_drop]⟩

theorem postCharts_campaignDurations (s : AggState) :
    (postCharts s).campaignDurations
      = (sortPairsDesc (jsEntries s.campaignDurations)).take 5 := rfl

/-- C7 (amended): the campaign-duration table after its header contains at
most 5 entries and its summed durations are descending; entries with equal
totals appear in the Object.entries enumeration order of the accumulator —
integer-like campaignType keys first in ascending numeric order, then the
remaining keys in first-seen insertion order — so ties follow first-seen
order exactly when no tied key is integer-like. -/
theorem c7_top5_sorted_stable (som eom : ℤ) (data : List CampaignRecord) :
    (App3.processDataForCharts som eom data).campaignDurations.length ≤ 5 ∧
    (App3.processDataForCharts som eom data).campaignDurations.Pairwise
      (fun a b => b.2 ≤ a.2) ∧
    ∀ v : ℚ, ∃ rest,
      ((App3.processDataForCharts som eom data).campaignDurations.filter
          (fun e => decide (e.2 = v))) ++ rest
        = (jsEntries ((data.foldl (App3.step som eom) initAgg).campaignDurations)).filter
            (fun e => decide (e.2 = v)) := by
  rw [app3_processDataForCharts_eq_post, postCharts_campaignDurations]
  refine ⟨List.length_take_le 5 _, ?_, ?_⟩
  · exact (sortPairsDesc_pairwise _).sublist (List.take_sublist 5 _)
  · intro v
    obtain ⟨t, ht⟩ := filter_take_leads (fun e => decide (e.2 = v)) 5
      (sortPairsDesc (jsEntries (data.foldl (App3.step som eom) initAgg).campaignDurations))
    exact ⟨t, by rw [ht, sortPairsDesc_filter]⟩

theorem cacheGet_remove_self (c : List (String × Stored × ℕ)) (k : String) :
    cacheGet (cacheRemove c k) k = none := by
  simp [cacheGet, cacheRemove, List.find?_filter]

theorem cacheGet_remove_other (c : List (String × Stored × ℕ)) (k k' : String)
    (h : ¬ k' = k) : cacheGet (cacheRemove c k) k' = cacheGet c k' := by
  induction c with
  | nil => rfl
  | cons e tl ih =>
    unfold cacheGet cacheRemove at *
    by_cases he : e.1 = k
    · have hkk : ¬ k = k' := fun hx => h hx.symm
      simp [List.filter_cons, List.find?_cons, he, hkk] at ih ⊢
      exact ih
    · by_cases he2 : e.1 = k'
      · simp [List.filter_cons, List.find?_cons, he, he2, h]
      · simp [List.filter_cons, List.find?_cons, he, he2] at ih ⊢
        exact ih

theorem find?_cachePut_self (c : List (String × Stored × ℕ)) (k : String)
    (v : Stored) (t : ℕ) :
    (cachePut c k v t).find? (fun e => e.1 = k) = some (k, v, t) := by
  unfold cachePut
  rw [List.find?_append, List.find?_filter]
  simp

theorem cacheGet_put_self (c : List (String × Stored × ℕ)) (k : String)
    (v : Stored) (t : ℕ) : cacheGet (cachePut c k v t) k = some v := by
  unfold cacheGet
  rw [find?_cachePut_self]
  rfl

/-- C3: when the resolved role is absent, or is any string other than
exactly admin (the role comparison is case-sensitive, while the identity
lookup inside getUserRole folds case), appendCodeToSheet fails with
PermissionDenied and returns the world unchanged: no cell of the source
table is written and no cache entry is removed. -/
theorem c3_permission_denied_no_effects (code : JSVal) (w : World)
    (h : getUserRole w = none ∨
      ∃ s, getUserRole w = some (.str s) ∧ s ≠ "admin") :
    appendCodeToSheet code w = (.error .permissionDenied, w) := by
  have hne : ¬ getUserRole w = some (.str "admin") := by
    rcases h with h | ⟨s, hs, hsne⟩
    · simp [h]
    · simp [hs]
      intro hx
      exact hsne hx
  unfold appendCodeToSheet
  rw [if_neg hne]

/-- Witness for C3: a permissions row resolving to the role Admin, which
differs from admin only in case, is denied and leaves the world untouched. -/
theorem c3_witness :
    getUserRole w5 = some (.str "Admin") ∧
    appendCodeToSheet (.str "NEW-1") w5 = (.error .permissionDenied, w5) :=
  ⟨by decide,
   c3_permission_denied_no_effects (.str "NEW-1") w5
     (Or.inr ⟨"Admin", by decide, by decide⟩)⟩

/-- C2 (amended): a successful mutation through appendCodeToSheet deletes
the base dashboard cache entry regardless of TTL, but no other cache entry:
every cached search-query payload survives with its entry intact. -/
theorem c2_mutation_removes_only_base_entry (code : JSVal) (w : World) (sh : Sheet)
    (hrole : getUserRole w = some (.str "admin"))
    (hcode : jsTruthy code = true ∧ ¬ jsTrim (jsStr code) = "")
    (hsh : w.sourceSheet = some sh) :
    (appendCodeToSheet code w).1 = .ok (appendMsg code (targetRow sh)) ∧
    cacheGet (appendCodeToSheet code w).2.cache CACHE_KEY_BASE_DATA = none ∧
    ∀ k, ¬ k = CACHE_KEY_BASE_DATA →
      cacheGet (appendCodeToSheet code w).2.cache k = cacheGet w.cache k := by
  obtain ⟨hc1, hc2⟩ := hcode
  unfold appendCodeToSheet
  rw [if_pos hrole, if_neg (by simp [hc1, hc2]), hsh]
  refine ⟨rfl, ?_, ?_⟩
  · exact cacheGet_remove_self w.cache CACHE_KEY_BASE_DATA
  · intro k hk
    exact cacheGet_remove_other w.cache CACHE_KEY_BASE_DATA k hk

/-- Witness for the amended C2 at a concrete admin world. -/
theorem c2_witness :
    cacheGet (appendCodeToSheet (.str "Z") w3).2.cache CACHE_KEY_BASE_DATA = none ∧
    cacheGet (appendCodeToSheet (.str "Z") w3).2.cache "APP3_SEARCH_CT_FOO"
      = cacheGet w3.cache "APP3_SEARCH_CT_FOO" := by
  have h := c2_mutation_removes_only_base_entry (.str "Z") w3 sh3
    (by decide) ⟨by decide, by decide⟩ rfl
  exact ⟨h.2.1, h.2.2 "APP3_SEARCH_CT_FOO" (by decide)⟩

/-- C2 counterexample: after a successful mutation the cached search payload
for the needle FOO is still present, and a subsequent search for foo is
served that pre-mutation payload — refuting the claim that every cache
entry is deleted and that no subsequent read can see a pre-mutation cached
result. -/
theorem c2_counterexample :
    (appendCodeToSheet (.str "Z") w3).1 = .ok "Code \"Z\" submitted to row 2." ∧
    cacheGet (appendCodeToSheet (.str "Z") w3).2.cache "APP3_SEARCH_CT_FOO"
      = some (.search [staleHit]) ∧
    (searchCampaignByType "foo" (appendCodeToSheet (.str "Z") w3).2).1
      = .list [staleHit] := by
  decide

/-- C8: whenever the stored base-dashboard payload is corrupted (its
deserialization fails), getDashboardData returns exactly the result of
recomputing the dashboard directly from the source table, leaves the world
unchanged, and surfaces no parse failure. -/
theorem c8_corrupt_cache_falls_back (som eom : ℤ) (w : World)
    (h : cacheGet w.cache CACHE_KEY_BASE_DATA = some .bad) :
    (getDashboardData som eom w).1 = dressDash w (buildBaseDashboardData som eom w) ∧
    (getDashboardData som eom w).2 = w := by
  unfold getDashboardData
  rw [h]
  exact ⟨rfl, rfl⟩

/-- Witness for C8 at a concrete world whose cached base entry is corrupted. -/
theorem c8_witness :
    cacheGet w8.cache CACHE_KEY_BASE_DATA = some .bad ∧
    (getDashboardData 0 0 w8).1 = dressDash w8 (buildBaseDashboardData 0 0 w8) ∧
    (getDashboardData 0 0 w8).2 = w8 :=
  ⟨by decide, c8_corrupt_cache_falls_back 0 0 w8 (by decide)⟩

theorem scanEmpty_eq_some (f : ℕ → JSVal) :
    ∀ (n start r : ℕ), scanEmpty f start n = some r →
      start ≤ r ∧ r < start + n ∧ f r = .str "" ∧
      ∀ r', start ≤ r' → r' < r → f r' ≠ .str "" := by
  intro n
  induction n with
  | zero => intro start r h; simp [scanEmpty] at h
  | succ m ih =>
    intro start r h
    unfold scanEmpty at h
    by_cases hf : f start = .str ""
    · rw [if_pos hf] at h
      injection h with h'
      subst h'
      exact ⟨le_refl _, by omega, hf, fun r' h1 h2 => absurd h1 (by omega)⟩
    · rw [if_neg hf] at h
      obtain ⟨h1, h2, h3, h4⟩ := ih (start + 1) r h
      refine ⟨by omega, by omega, h3, ?_⟩
      intro r' hr1 hr2
      by_cases hr : r' = start
      · subst hr; exact hf
      · exact h4 r' (by omega) hr2

theorem scanEmpty_eq_none (f : ℕ → JSVal) :
    ∀ (n start : ℕ), scanEmpty f start n = none →
      ∀ r', start ≤ r' → r' < start + n → f r' ≠ .str "" := by
  intro n
  induction n with
  | zero => intro start _ r' h1 h2; omega
  | succ m ih =>
    intro start h r' h1 h2
    unfold scanEmpty at h
    by_cases hf : f start = .str ""
    · rw [if_pos hf] at h; exact absurd h (by simp)
    · rw [if_neg hf] at h
      by_cases hr : r' = start
      · subst hr; exact hf
      · exact ih (start + 1) h r' (by omega) (by omega)

theorem targetRow_spec (sh : Sheet) :
    1 ≤ targetRow sh ∧
    ((targetRow sh ≤ sh.maxRows ∧
        sh.cells (targetRow sh) ENTRY_COLUMN_INDEX = .str "" ∧
        ∀ r', 1 ≤ r' → r' < targetRow sh →
          sh.cells r' ENTRY_COLUMN_INDEX ≠ .str "") ∨
      ((∀ r', 1 ≤ r' → r' ≤ sh.maxRows →
          sh.cells r' ENTRY_COLUMN_INDEX ≠ .str "") ∧
        targetRow sh = sh.lastRow + 1)) := by
  unfold targetRow
  cases hscan : scanEmpty (fun r => sh.cells r ENTRY_COLUMN_INDEX) 1 sh.maxRows with
  | none =>
    have h := scanEmpty_eq_none (fun r => sh.cells r ENTRY_COLUMN_INDEX) sh.maxRows 1 hscan
    refine ⟨by simp, Or.inr ⟨?_, rfl⟩⟩
    intro r' h1 h2
    exact h r' h1 (by omega)
  | some r =>
    obtain ⟨h1, h2, h3, h4⟩ :=
      scanEmpty_eq_some (fun r => sh.cells r ENTRY_COLUMN_INDEX) sh.maxRows 1 r hscan
    refine ⟨by simpa using h1, Or.inl ⟨by simpa using by omega, h3, ?_⟩⟩
    intro r' hr1 hr2
    exact h4 r' hr1 (by simpa using hr2)

/-- C9: on the success path (admin role, non-blank code, source sheet
present) appendCodeToSheet writes the code into exactly one cell of the
source table — entry column 43, at the first row whose cell in that column
is the empty string, or at lastRow + 1 when the scanned column has no empty
cell — and leaves every other cell unchanged. -/
theorem c9_append_writes_one_cell (code : JSVal) (w : World) (sh : Sheet)
    (hrole : getUserRole w = some (.str "admin"))
    (hcode : jsTruthy code = true ∧ ¬ jsTrim (jsStr code) = "")
    (hsh : w.sourceSheet = some sh) :
    (appendCodeToSheet code w).1 = .ok (appendMsg code (targetRow sh)) ∧
    ((appendCodeToSheet code w).2.sourceSheet.map
        (fun s => s.cells (targetRow sh) ENTRY_COLUMN_INDEX)) = some code ∧
    (∀ r c, ¬ (r = targetRow sh ∧ c = ENTRY_COLUMN_INDEX) →
      ((appendCodeToSheet code w).2.sourceSheet.map (fun s => s.cells r c))
        = some (sh.cells r c)) ∧
    1 ≤ targetRow sh ∧
    ((targetRow sh ≤ sh.maxRows ∧
        sh.cells (targetRow sh) ENTRY_COLUMN_INDEX = .str "" ∧
        ∀ r', 1 ≤ r' → r' < targetRow sh →
          sh.cells r' ENTRY_COLUMN_INDEX ≠ .str "") ∨
      ((∀ r', 1 ≤ r' → r' ≤ sh.maxRows →
          sh.cells r' ENTRY_COLUMN_INDEX ≠ .str "") ∧
        targetRow sh = sh.lastRow + 1)) := by
  obtain ⟨hc1, hc2⟩ := hcode
  obtain ⟨ht1, ht2⟩ := targetRow_spec sh
  unfold appendCodeToSheet
  rw [if_pos hrole, if_neg (by simp [hc1, hc2]), hsh]
  refine ⟨rfl, by simp, ?_, ht1, ht2⟩
  intro r c hrc
  simp [hrc]

/-- Witness for C9: on the fixture sheet the first empty entry cell is in
row 2 and the write lands there, leaving the occupied row-1 cell intact. -/
theorem c9_witness :
    (appendCodeToSheet (.str "Z9") w4).1 = .ok "Code \"Z9\" submitted to row 2." ∧
    ((appendCodeToSheet (.str "Z9") w4).2.sourceSheet.map (fun s => s.cells 2 43))
      = some (.str "Z9") ∧
    ((appendCodeToSheet (.str "Z9") w4).2.sourceSheet.map (fun s => s.cells 1 43))
      = some (.str "x") := by
  have h := c9_append_writes_one_cell (.str "Z9") w4 sh4
    (by decide) ⟨by decide, by decide⟩ rfl
  have ht : targetRow sh4 = 2 := by decide
  obtain ⟨h1, h2, h3, _, _⟩ := h
  rw [ht] at h1 h2
  refine ⟨h1, ?_, ?_⟩
  · simpa [ENTRY_COLUMN_INDEX] using h2
  · have := h3 1 43 (by rw [ht]; simp)
    simpa using this

/-- C6: a query that is empty or blank after trimming makes
searchCampaignByType return the empty list with the world unchanged and an
empty effect trace: no cache read, no cache write, and no read of the
source table. -/
theorem c6_blank_query_no_effects (q : String) (w : World) (h : jsTrim q = "") :
    searchCampaignByType q w = (.list [], w, []) := by
  unfold searchCampaignByType
  rw [if_pos h]

/-- Witness for C6 on a whitespace-only query. -/
theorem c6_witness : searchCampaignByType "   " w1 = (.list [], w1, []) :=
  c6_blank_query_no_effects "   " w1 (by decide)

/-- C10: on a cache miss searchCampaignByType returns the full sorted result
list uncapped, while the payload it stores under the search key is the
first 300 entries with a 30-second TTL; a subsequent call with the same
query is served the capped cached list, so when more than 300 records match
the later hit returns exactly 300 entries — fewer than the miss returned. -/
theorem c10_search_caps_cached_payload (q : String) (w : World) (sh : Sheet)
    (hq : ¬ jsTrim q = "") (hsh : w.sourceSheet = some sh)
    (hmiss : cacheGet w.cache (searchKey q) = none) :
    (searchCampaignByType q w).1 = .list (searchResultsFor (searchNeedle q) sh) ∧
    ((searchCampaignByType q w).2.1.cache.find? (fun e => e.1 = searchKey q))
      = some (searchKey q,
          .search ((searchResultsFor (searchNeedle q) sh).take 300), 30) ∧
    (searchCampaignByType q (searchCampaignByType q w).2.1).1
      = .list ((searchResultsFor (searchNeedle q) sh).take 300) ∧
    (300 < (searchResultsFor (searchNeedle q) sh).length →
      ((searchResultsFor (searchNeedle q) sh).take 300).length = 300 ∧
      ((searchResultsFor (searchNeedle q) sh).take 300).length
        < (searchResultsFor (searchNeedle q) sh).length) := by
  simp only [searchKey] at hmiss ⊢
  have e1 : searchCampaignByType q w
      = (.list (searchResultsFor (searchNeedle q) sh),
         { w with cache := cachePut w.cache ( CACHE_KEY_SEARCH_PREFIX ++ searchNeedle q) (.search ((searchResultsFor (searchNeedle q) sh).take 300)) 30 },
         (if sh.lastRow ≤ 1 then ([] : List Eff) else [.sheetReadE])
           ++ [.cacheGetE ( CACHE_KEY_SEARCH_PREFIX ++ searchNeedle q),
               .cachePutE ( CACHE_KEY_SEARCH_PREFIX ++ searchNeedle q)]) := by
    unfold searchCampaignByType
    rw [if_neg hq, hsh]
    simp only [hmiss]
  refine ⟨by rw [e1], ?_, ?_, ?_⟩
  · rw [e1]
    exact find?_cachePut_self w.cache _ _ 30
  · rw [e1]
    unfold searchCampaignByType
    rw [if_neg hq]
    simp only [hsh]
    rw [cacheGet_put_self]
  · intro hlen
    rw [List.length_take]
    constructor
    · omega
    · omega

/-- Witness for C10 at a concrete world with an empty cache. -/
theorem c10_witness :
    ¬ jsTrim "x" = "" ∧
    (searchCampaignByType "x" w2).1 = .list (searchResultsFor (searchNeedle "x") sh2) ∧
    (searchCampaignByType "x" (searchCampaignByType "x" w2).2.1).1
      = .list ((searchResultsFor (searchNeedle "x") sh2).take 300) := by
  have h := c10_search_caps_cached_payload "x" w2 sh2 (by decide) rfl (by decide)
  exact ⟨by decide, h.1, h.2.2.1⟩

theorem stripNonNumeric_of_symbolsOnly (s : String) (h : symbolsOnly s = true) :
    stripNonNumeric s = "" := by
  unfold stripNonNumeric
  unfold symbolsOnly at h
  rw [List.all_eq_true] at h
  have : s.data.filter (fun c => c.isDigit || c = '.' || c = '+' || c = '-') = [] := by
    rw [List.filter_eq_nil_iff]
    intro a ha
    have := h a ha
    simp only [decide_not, Bool.not_eq_true', decide_eq_false_iff_not] at this
    simp only [Bool.or_eq_true, decide_eq_true_eq, not_or] at this ⊢
    tauto
  rw [this]

/-- C4 counterexample: the one-character string consisting only of the
non-numeric symbol dollar is converted to 0, not to absent, because the
strip leaves the empty string and JS Number of the empty string is 0. -/
theorem c4_counterexample :
    symbolsOnly "$" = true ∧ toNumber (.str "$") = some 0 ∧
    toNumber (.str "$") ≠ none := by
  decide

/-- C4 (amended): a string of only non-numeric symbols yields 0 when it is
not blank (the stripped string is empty and Number of the empty string is
0) and absent when it is blank; the dollar-and-comma decimal parses to its
numeric value; and every non-string non-number input, every non-finite
number, and every string whose stripped form fails to parse yields absent. -/
theorem c4_parseNumber_behaviour :
    (∀ s : String, symbolsOnly s = true →
      toNumber (.str s) = if jsTrim s = "" then none else some 0) ∧
    toNumber (.str "$1,234.56") = some (123456 / 100) ∧
    (∀ q : ℚ, toNumber (.num q) = some q) ∧
    toNumber .nan = none ∧ toNumber .infPos = none ∧ toNumber .infNeg = none ∧
    (∀ b, toNumber (.boolV b) = none) ∧ toNumber .nullV = none ∧
    toNumber .undef = none ∧ (∀ t : ℤ, toNumber (.dateObj t) = none) ∧
    toNumber .dateInvalid = none ∧
    (∀ s : String, ¬ jsTrim s = "" →
      parseStripped (stripNonNumeric s) = none → toNumber (.str s) = none) := by
  have hdec : toNumber (.str "$1,234.56")
      = some ((1 : ℚ) * ((digitsVal ['1', '2', '3', '4'] : ℚ)
          + (digitsVal ['5', '6'] : ℚ) / (10 : ℚ) ^ (2 : ℕ))) := rfl
  refine ⟨?_, ?_, fun q => rfl, rfl, rfl, rfl, fun b => rfl, rfl, rfl,
    fun t => rfl, rfl, ?_⟩
  · intro s hs
    by_cases ht : jsTrim s = ""
    · simp [toNumber, ht]
    · rw [if_neg ht]
      show (if jsTrim s = "" then none else parseStripped (stripNonNumeric s)) = some 0
      rw [if_neg ht, stripNonNumeric_of_symbolsOnly s hs]
      rfl
  · rw [hdec]
    have e1 : (digitsVal ['1', '2', '3', '4'] : ℕ) = 1234 := rfl
    have e2 : (digitsVal ['5', '6'] : ℕ) = 56 := rfl
    rw [e1, e2]
    norm_num
  · intro s hs hp
    show (if jsTrim s = "" then none else parseStripped (stripNonNumeric s)) = none
    rw [if_neg hs, hp]

/-- Witness for C4 on concrete strings: a non-blank symbols-only input
parses to 0 and an unparsable stripped input parses to absent. -/
theorem c4_witness :
    toNumber (.str "%") = some 0 ∧ toNumber (.str "+-") = none := by
  have h1 := c4_parseNumber_behaviour.1 "%" (by decide)
  rw [if_neg (by decide)] at h1
  have h2 := c4_parseNumber_behaviour.2.2.2.2.2.2.2.2.2.2.2 "+-" (by decide) (by decide)
  exact ⟨h1, h2⟩

/-- C7 counterexample: the campaignType keys 2 and 1 are integer-like, so
Object.entries enumerates them in ascending numeric order ahead of
insertion order; with equal totals the stable sort keeps that order, and
the published tie comes out 1 before 2 — not the first-seen order 2 before
1 claimed for every input. -/
theorem c7_counterexample :
    (List.foldl (App3.step 0 0) initAgg [c7RecA, c7RecB]).campaignDurations
      = [("2", c7DurVal), ("1", c7DurVal)] ∧
    (App3.processDataForCharts 0 0 [c7RecA, c7RecB]).campaignDurations
      = [("1", c7DurVal), ("2", c7DurVal)] ∧
    ((App3.processDataForCharts 0 0 [c7RecA, c7RecB]).campaignDurations).map Prod.fst
      ≠ ((List.foldl (App3.step 0 0) initAgg [c7RecA, c7RecB]).campaignDurations).map
          Prod.fst := by
  have h1 : (List.foldl (App3.step 0 0) initAgg [c7RecA, c7RecB]).campaignDurations
      = [("2", c7DurVal), ("1", c7DurVal)] := rfl
  have hlt : (c7DurVal < c7DurVal) = False := by simp
  have h2 : (App3.processDataForCharts 0 0 [c7RecA, c7RecB]).campaignDurations
      = [("1", c7DurVal), ("2", c7DurVal)] := by
    rw [app3_processDataForCharts_eq_post, postCharts_campaignDurations, h1]
    have hj : jsEntries [("2", c7DurVal), ("1", c7DurVal)]
        = [("1", c7DurVal), ("2", c7DurVal)] := rfl
    rw [hj]
    simp [sortPairsDesc, stableSort, stableInsert, hlt]
  refine ⟨h1, h2, ?_⟩
  rw [h1, h2]
  decide
